import Mathlib

/-! # Soccer-news infrastructure: core verification

Shallow embedding of the two non-trivial subsystems of the repository:

* the browser-session Lambda handler (`src/lambdas/browser/index.mjs`):
  input validation, session lifecycle with guaranteed close, the
  `find_classes` extraction operation, and the JS `||` defaulting of the
  optional numeric fields;
* the notification pipeline Lambda (Python handler recorded in
  `prompts/prompt1_transcript.md`): the Assistants-API primary strategy with
  its poll loop, the Chat-Completions fallback, the headline/description
  parser, and SNS publishing with the best-effort error notification.

Text is modelled as `List Char`; external effects (browser, OpenAI, SNS)
are modelled as explicit world records whose fields describe the outcome of
each external call, and handlers additionally return a trace recording the
resource-lifecycle events the claims talk about.
-/

namespace SoccerNews

/-- Abbreviation taking a string literal to the character-list model. -/
def chars (s : String) : List Char := s.toList

/-! ## Python string primitives

`pyStrip` models Python `str.strip()` restricted to the ASCII whitespace
characters; `splitFirst` models `str.split(sep, 1)` when the separator
occurs (it returns `none` exactly when Python's `in` test is false). -/

/-- ASCII whitespace characters removed by Python `str.strip()`. -/
def isPySpace (c : Char) : Bool :=
  c = ' ' || c = '\t' || c = '\n' || c = '\r' || c = '\x0b' || c = '\x0c'

/-- Leading whitespace removal (Python `lstrip`). -/
def lstrip (l : List Char) : List Char := l.dropWhile isPySpace

/-- Trailing whitespace removal (Python `rstrip`). -/
def rstrip (l : List Char) : List Char := (l.reverse.dropWhile isPySpace).reverse

/-- Python `str.strip()`. -/
def pyStrip (l : List Char) : List Char := rstrip (lstrip l)

/-- `leadsWith pat l` holds when `pat` is an initial segment of `l`. -/
def leadsWith : List Char → List Char → Bool
  | [], _ => true
  | _ :: _, [] => false
  | a :: pa, b :: lb => a == b && leadsWith pa lb

/-- Split at the first occurrence of `sep` (Python `split(sep, 1)` when the
separator occurs; `none` when it does not). -/
def splitFirst (sep : List Char) : List Char → Option (List Char × List Char)
  | [] => none
  | c :: rest =>
    if leadsWith sep (c :: rest) then some ([], (c :: rest).drop sep.length)
    else
      match splitFirst sep rest with
      | some (pre, post) => some (c :: pre, post)
      | none => none

/-- The fixed triple-line-break separator between headline and description. -/
def tripleSep : List Char := ['\n', '\n', '\n']

/-- `sep` occurs as a contiguous segment of `l`. -/
def hasSegment (sep l : List Char) : Prop := ∃ x y, l = x ++ sep ++ y

/-- Headline/description pair produced by the response parser. -/
structure Envelope where
  headline : List Char
  description : List Char
deriving DecidableEq

/-- The response parser of the pipeline handler: split on the first triple
line break and strip both sides; absent that, split on the first single line
break; absent any line break, the stripped text is the headline and the
description is empty. -/
def parseNotification (raw : List Char) : Envelope :=
  match splitFirst tripleSep raw with
  | some (h, d) => ⟨pyStrip h, pyStrip d⟩
  | none =>
    match splitFirst ['\n'] raw with
    | some (h, d) => ⟨pyStrip h, pyStrip d⟩
    | none => ⟨pyStrip raw, []⟩

/-! ## Lemmas about `leadsWith` and `splitFirst` -/

theorem leadsWith_iff (pat : List Char) :
    ∀ l, leadsWith pat l = true ↔ ∃ u, l = pat ++ u := by
  induction pat with
  | nil => intro l; simp [leadsWith]
  | cons a pa ih =>
    intro l
    cases l with
    | nil => simp [leadsWith]
    | cons b lb =>
      simp only [leadsWith, Bool.and_eq_true, beq_iff_eq, ih lb]
      constructor
      · rintro ⟨rfl, u, rfl⟩; exact ⟨u, rfl⟩
      · rintro ⟨u, h⟩
        cases h
        exact ⟨rfl, u, rfl⟩

theorem splitFirst_eq_some (sep : List Char) :
    ∀ l pre post, splitFirst sep l = some (pre, post) → l = pre ++ sep ++ post := by
  intro l
  induction l with
  | nil => intro pre post h; simp [splitFirst] at h
  | cons c rest ih =>
    intro pre post h
    by_cases hl : leadsWith sep (c :: rest) = true
    · rw [splitFirst, if_pos hl] at h
      obtain ⟨u, hu⟩ := (leadsWith_iff sep (c :: rest)).mp hl
      have hpre : pre = [] ∧ post = (c :: rest).drop sep.length := by
        constructor <;> { injection h with h'; cases h'; rfl }
      rw [hpre.1, hpre.2, hu, List.drop_left]
      simp
    · rw [splitFirst, if_neg hl] at h
      cases hrec : splitFirst sep rest with
      | none => rw [hrec] at h; exact absurd h (by simp)
      | some pq =>
        obtain ⟨p, q⟩ := pq
        rw [hrec] at h
        have : pre = c :: p ∧ post = q := by
          constructor <;> { injection h with h'; cases h'; rfl }
        rw [this.1, this.2]
        have := ih p q hrec
        simp [this]

theorem splitFirst_min (sep : List Char) :
    ∀ l pre post, splitFirst sep l = some (pre, post) →
      ∀ i, i < pre.length → leadsWith sep (l.drop i) = false := by
  intro l
  induction l with
  | nil => intro pre post h; simp [splitFirst] at h
  | cons c rest ih =>
    intro pre post h i hi
    by_cases hl : leadsWith sep (c :: rest) = true
    · rw [splitFirst, if_pos hl] at h
      have hpre : pre = [] := by injection h with h'; cases h'; rfl
      rw [hpre] at hi
      simp at hi
    · rw [splitFirst, if_neg hl] at h
      cases hrec : splitFirst sep rest with
      | none => rw [hrec] at h; exact absurd h (by simp)
      | some pq =>
        obtain ⟨p, q⟩ := pq
        rw [hrec] at h
        have hp : pre = c :: p := by injection h with h'; cases h'; rfl
        cases i with
        | zero => simpa using hl
        | succ j =>
          have : j < p.length := by
            rw [hp] at hi; simpa using hi
          simpa using ih p q hrec j this

theorem splitFirst_append_sep (sep : List Char) (hsep : sep ≠ []) :
    ∀ a b, ∃ pre post,
      splitFirst sep (a ++ sep ++ b) = some (pre, post) ∧ pre.length ≤ a.length := by
  intro a
  induction a with
  | nil =>
    intro b
    cases sep with
    | nil => exact absurd rfl hsep
    | cons s ss =>
      refine ⟨[], b, ?_, by simp⟩
      have hlead : leadsWith (s :: ss) (s :: (ss ++ b)) = true :=
        (leadsWith_iff _ _).mpr ⟨b, by simp⟩
      show splitFirst (s :: ss) ([] ++ (s :: ss) ++ b) = some ([], b)
      simp only [List.nil_append, List.cons_append]
      rw [splitFirst, if_pos hlead]
      simp [List.drop_left]
  | cons c a' ih =>
    intro b
    by_cases hl : leadsWith sep (c :: (a' ++ sep ++ b)) = true
    · refine ⟨[], (c :: (a' ++ sep ++ b)).drop sep.length, ?_, by simp⟩
      simp only [List.cons_append, List.append_assoc]
      rw [splitFirst, if_pos (by simpa [List.append_assoc] using hl)]
    · obtain ⟨pre, post, hsp, hle⟩ := ih b
      refine ⟨c :: pre, post, ?_, by simpa using Nat.succ_le_succ hle⟩
      simp only [List.cons_append, List.append_assoc] at hl ⊢
      rw [splitFirst, if_neg hl]
      rw [List.append_assoc] at hsp
      rw [hsp]

theorem not_hasSegment_of_splitFirst_none (sep l : List Char) (hsep : sep ≠ [])
    (h : splitFirst sep l = none) : ¬ hasSegment sep l := by
  rintro ⟨x, y, rfl⟩
  obtain ⟨pre, post, hsp, _⟩ := splitFirst_append_sep sep hsep x y
  rw [hsp] at h
  exact absurd h (by simp)

theorem hasSegment_of_splitFirst_some (sep l pre post : List Char)
    (h : splitFirst sep l = some (pre, post)) : hasSegment sep l :=
  ⟨pre, post, splitFirst_eq_some sep l pre post h⟩

/-! ## Whitespace absorption by `pyStrip` -/

theorem dropWhile_append_all {p : Char → Bool} {w : List Char}
    (hw : ∀ c ∈ w, p c = true) (x : List Char) :
    List.dropWhile p (w ++ x) = List.dropWhile p x := by
  induction w with
  | nil => simp
  | cons c w' ih =>
    have hc : p c = true := hw c (by simp)
    have hw' : ∀ c ∈ w', p c = true := fun c hc => hw c (by simp [hc])
    simp [List.dropWhile_cons, hc, ih hw']

theorem rstrip_append_all {w : List Char} (hw : ∀ c ∈ w, isPySpace c = true)
    (x : List Char) : rstrip (x ++ w) = rstrip x := by
  unfold rstrip
  rw [List.reverse_append, dropWhile_append_all (fun c hc => hw c (by simpa using hc))]

theorem pyStrip_append_right {w : List Char} (hw : ∀ c ∈ w, isPySpace c = true)
    (x : List Char) : pyStrip (x ++ w) = pyStrip x := by
  induction x with
  | nil =>
    show pyStrip w = pyStrip []
    unfold pyStrip lstrip
    rw [show List.dropWhile isPySpace w = List.dropWhile isPySpace [] by
      simpa using dropWhile_append_all hw []]
  | cons c x' ih =>
    by_cases hc : isPySpace c = true
    · show pyStrip (c :: (x' ++ w)) = pyStrip (c :: x')
      unfold pyStrip lstrip
      rw [List.dropWhile_cons, if_pos hc, List.dropWhile_cons, if_pos hc]
      exact ih
    · show pyStrip (c :: (x' ++ w)) = pyStrip (c :: x')
      unfold pyStrip lstrip
      rw [List.dropWhile_cons, if_neg hc, List.dropWhile_cons, if_neg hc]
      exact rstrip_append_all hw (c :: x')

theorem pyStrip_append_left {w : List Char} (hw : ∀ c ∈ w, isPySpace c = true)
    (x : List Char) : pyStrip (w ++ x) = pyStrip x := by
  unfold pyStrip lstrip
  rw [dropWhile_append_all hw]

theorem replicate_newline_space (n : Nat) :
    ∀ c ∈ List.replicate n '\n', isPySpace c = true := by
  intro c hc
  rw [List.eq_of_mem_replicate hc]
  decide

/-! ## The split of `a ++ tripleSep ++ b` recovers `a` and `b` up to strip -/

theorem strip_of_sep_decomposition (a b h d : List Char)
    (heq : h ++ tripleSep ++ d = a ++ tripleSep ++ b)
    (hlen : h.length ≤ a.length)
    (hseg : ¬ hasSegment tripleSep a) :
    pyStrip h = pyStrip a ∧ pyStrip d = pyStrip b := by
  -- `h` is a prefix of `a`
  have heq' : h ++ (tripleSep ++ d) = a ++ (tripleSep ++ b) := by
    simpa [List.append_assoc] using heq
  have hpre : h = a.take h.length := by
    have h1 : (h ++ (tripleSep ++ d)).take h.length = h := by
      simp [List.take_append_eq_append_take]
    have h2 : (a ++ (tripleSep ++ b)).take h.length = a.take h.length := by
      rw [List.take_append_eq_append_take, Nat.sub_eq_zero_of_le hlen]
      simp
    conv_lhs => rw [← h1, heq']
    exact h2
  set t := a.drop h.length with ht
  have ha : a = h ++ t := by rw [hpre, ht, List.take_append_drop]
  -- cancel the common prefix `h`
  have hmid : tripleSep ++ d = t ++ (tripleSep ++ b) := by
    rw [ha] at heq'
    have heq2 : h ++ (tripleSep ++ d) = h ++ (t ++ (tripleSep ++ b)) := by
      simpa [List.append_assoc] using heq'
    exact List.append_cancel_left heq2
  -- `t` is shorter than the separator, else the separator would occur in `a`
  have htlen : t.length ≤ 2 := by
    by_contra hgt
    push_neg at hgt
    have h3 : 3 ≤ t.length := hgt
    have htake : t.take 3 = tripleSep := by
      have h1 : (tripleSep ++ d).take 3 = tripleSep := by
        simp [List.take_append_eq_append_take, tripleSep]
      have h2 : (t ++ (tripleSep ++ b)).take 3 = t.take 3 := by
        rw [List.take_append_eq_append_take, Nat.sub_eq_zero_of_le h3]
        simp
      rw [← h2, ← hmid, h1]
    exact hseg ⟨h, t.drop 3, by
      conv_lhs => rw [ha, ← List.take_append_drop 3 t, htake]
      simp [List.append_assoc]⟩
  -- hence `t` is a run of newlines
  have htrep : t = List.replicate t.length '\n' := by
    have h1 : (tripleSep ++ d).take t.length = tripleSep.take t.length := by
      rw [List.take_append_eq_append_take, Nat.sub_eq_zero_of_le (by
        rw [show tripleSep.length = 3 from by decide]; omega)]
      simp
    have h2 : (t ++ (tripleSep ++ b)).take t.length = t := by
      simp [List.take_append_eq_append_take]
    conv_lhs => rw [← h2, ← hmid]
    rw [h1, show tripleSep = List.replicate 3 '\n' from by decide,
      List.take_replicate, Nat.min_eq_left (by omega)]
  -- and `d` is that run of newlines followed by `b`
  have hd : d = List.replicate t.length '\n' ++ b := by
    have h1 : (tripleSep ++ d).drop 3 = d := by
      rw [show (3 : Nat) = tripleSep.length from by decide, List.drop_left]
    have h2 : (t ++ (tripleSep ++ b)).drop 3 =
        List.replicate t.length '\n' ++ b := by
      have hts : t ++ tripleSep = List.replicate (t.length + 3) '\n' := by
        rw [show tripleSep = List.replicate 3 '\n' from by decide,
          List.replicate_add, ← htrep]
      rw [← List.append_assoc, hts, List.drop_append_eq_append_drop,
        List.drop_replicate, List.length_replicate]
      have e1 : t.length + 3 - 3 = t.length := by omega
      have e2 : 3 - (t.length + 3) = 0 := by omega
      rw [e1, e2, List.drop_zero]
    conv_lhs => rw [← h1, hmid]
    exact h2
  constructor
  · rw [ha, htrep, pyStrip_append_right (replicate_newline_space t.length)]
  · rw [hd, pyStrip_append_left (replicate_newline_space t.length)]

instance (sep l : List Char) : Decidable (hasSegment sep l) :=
  if hsep : sep = [] then isTrue ⟨[], l, by simp [hsep]⟩
  else
    match hsp : splitFirst sep l with
    | some (pre, post) => isTrue (hasSegment_of_splitFirst_some sep l pre post hsp)
    | none => isFalse (not_hasSegment_of_splitFirst_none sep l hsep hsp)

/-- Splitting at a single character is splitting at the first line break:
before it is `takeWhile`, after it is `dropWhile` minus the break itself. -/
theorem splitFirst_single (ch : Char) :
    ∀ l : List Char, splitFirst [ch] l =
      if ch ∈ l then
        some (l.takeWhile (fun c => c != ch), (l.dropWhile (fun c => c != ch)).drop 1)
      else none := by
  intro l
  induction l with
  | nil => simp [splitFirst]
  | cons c rest ih =>
    by_cases hc : c = ch
    · subst hc
      have hlead : leadsWith [c] (c :: rest) = true := by simp [leadsWith]
      rw [splitFirst, if_pos hlead]
      simp [List.takeWhile_cons, List.dropWhile_cons]
    · have hlead : ¬ leadsWith [ch] (c :: rest) = true := by
        simp [leadsWith]
        exact fun h => absurd h.symm hc
      rw [splitFirst, if_neg hlead, ih]
      by_cases hm : ch ∈ rest
      · simp [hm, hc, List.takeWhile_cons, List.dropWhile_cons]
      · have : ¬ ch ∈ c :: rest := by
          simp [List.mem_cons, hm]
          exact fun h => absurd h.symm hc
        simp [hm, this]

/-- C3: for non-empty `a` and `b` that do not themselves contain the triple
line-break separator, parsing `a ++ tripleSep ++ b` yields headline
`pyStrip a` and description `pyStrip b`; moreover, whenever the separator is
present in the raw text, the split decomposes the text at an occurrence of
the separator before which no occurrence starts (the first occurrence). -/
theorem C3_parse_roundtrip :
    (∀ a b : List Char, a ≠ [] → b ≠ [] →
      ¬ hasSegment tripleSep a → ¬ hasSegment tripleSep b →
      parseNotification (a ++ tripleSep ++ b) = ⟨pyStrip a, pyStrip b⟩)
    ∧ (∀ raw pre post : List Char, splitFirst tripleSep raw = some (pre, post) →
      raw = pre ++ tripleSep ++ post ∧
        ∀ i, i < pre.length → leadsWith tripleSep (raw.drop i) = false) := by
  constructor
  · intro a b _ _ hsa _
    obtain ⟨pre, post, hsp, hle⟩ :=
      splitFirst_append_sep tripleSep (by decide) a b
    have hdec := splitFirst_eq_some tripleSep _ pre post hsp
    obtain ⟨hh, hd⟩ := strip_of_sep_decomposition a b pre post hdec.symm hle hsa
    simp only [parseNotification, hsp]
    rw [hh, hd]
  · intro raw pre post hsp
    exact ⟨splitFirst_eq_some tripleSep raw pre post hsp,
      fun i hi => splitFirst_min tripleSep raw pre post hsp i hi⟩

/-- C3 witness: concrete round trip through the parser. -/
theorem C3_parse_roundtrip_witness :
    parseNotification (chars "A" ++ tripleSep ++ chars "B")
      = ⟨pyStrip (chars "A"), pyStrip (chars "B")⟩ :=
  C3_parse_roundtrip.1 (chars "A") (chars "B")
    (by decide) (by decide) (by decide) (by decide)

/-- C7 (amended): the parser is a total function; on raw text without the
triple separator it splits at the first single line break, the first line
stripped becoming the headline and the remainder stripped becoming the
description; with no line break at all, the headline is the entire text
stripped of surrounding whitespace and the description is empty. -/
theorem C7_degraded_parse :
    ∀ raw : List Char, ¬ hasSegment tripleSep raw →
      ('\n' ∈ raw →
        parseNotification raw =
          ⟨pyStrip (raw.takeWhile (fun c => c != '\n')),
           pyStrip ((raw.dropWhile (fun c => c != '\n')).drop 1)⟩)
      ∧ ('\n' ∉ raw → parseNotification raw = ⟨pyStrip raw, []⟩) := by
  intro raw hseg
  have hnone : splitFirst tripleSep raw = none := by
    cases hsp : splitFirst tripleSep raw with
    | none => rfl
    | some pq =>
      exact absurd
        (hasSegment_of_splitFirst_some tripleSep raw pq.1 pq.2 (by rw [hsp])) hseg
  constructor
  · intro hmem
    simp only [parseNotification, hnone, splitFirst_single '\n' raw, hmem, if_pos]
  · intro hmem
    simp only [parseNotification, hnone, splitFirst_single '\n' raw, hmem, if_neg,
      if_false]

/-- C7 witness: the degraded one-line example from the specification. -/
theorem C7_degraded_parse_witness :
    parseNotification (chars "only one line")
      = ⟨pyStrip (chars "only one line"), []⟩ :=
  (C7_degraded_parse (chars "only one line") (by decide)).2 (by decide)

/-- C7 counterexample: on raw text `" x "`, which has no line break, the
headline is the stripped text `"x"`, not the entire text `" x "` as the
claim's final clause states. -/
theorem C7_entire_text_counterexample :
    (parseNotification (chars " x ")).headline = chars "x" ∧
      chars "x" ≠ chars " x " := by decide

/-! ## Browser-session Lambda (`src/lambdas/browser/index.mjs`)

Each awaited external step (launch, goto, waitForSelector, settle sleep,
extraction, close) may throw; the world records which steps throw and with
which message, and the page data observed otherwise. The trace counts
launches/closes and records the navigation/settle configuration used. -/

/-- Render event, with JavaScript-style optional fields. -/
structure BrowserEvent where
  url : Option (List Char)
  operation : Option (List Char)
  keyword : Option (List Char)
  waitUntil : Option (List Char)
  timeout : Option Int
  waitForSelector : Option (List Char)
  delay : Option Int

/-- JavaScript truthiness of an optional string (absent and `""` are falsy). -/
def jsTruthy : Option (List Char) → Bool
  | none => false
  | some s => decide (s ≠ [])

/-- JavaScript `x || d` for an optional number (absent and `0` are falsy). -/
def jsOrInt (v : Option Int) (d : Int) : Int :=
  match v with
  | none => d
  | some n => if n = 0 then d else n

/-- JavaScript `x || d` for an optional string (absent and `""` are falsy). -/
def jsOrChars (v : Option (List Char)) (d : List Char) : List Char :=
  match v with
  | none => d
  | some s => if s = [] then d else s

/-- Behaviour of the external browser during one invocation. -/
structure BrowserWorld where
  launchFails : Bool
  launchErr : List Char
  navFails : Bool
  navErr : List Char
  selectorFails : Bool
  selectorErr : List Char
  settleFails : Bool
  settleErr : List Char
  extractFails : Bool
  extractErr : List Char
  closeFails : Bool
  closeErr : List Char
  finalUrl : List Char
  fullHtml : List Char
  classMatches : List Char → List (List Char)
  timestamp : List Char

/-- Response of the browser handler (constructor encodes the status code,
fields are the body). The 500 body carries the error message and the
originally requested url. -/
inductive BrowserResult
  | badRequest (error : List Char)
  | ok (html url timestamp : List Char)
  | serverError (error : List Char) (url : Option (List Char))
deriving DecidableEq

def BrowserResult.statusCode : BrowserResult → Nat
  | .badRequest _ => 400
  | .ok _ _ _ => 200
  | .serverError _ _ => 500

/-- Resource-lifecycle events of one invocation. -/
structure BrowserTrace where
  launches : Nat
  closes : Nat
  navTimeoutUsed : Option Int
  navWaitUntil : Option (List Char)
  settleWaited : Option Int
deriving DecidableEq

/-- Positional marker comment emitted before the `n`-th matched element. -/
def markerFor (className : List Char) (n : Nat) : List Char :=
  chars "<!-- Element " ++ chars (toString n) ++ chars " with class "
    ++ className ++ chars " -->"

/-- The `find_classes` page evaluation: a diagnostic placeholder on zero
matches, else the matched fragments each preceded by a marker, joined with
blank lines. -/
def findClassesEval (w : BrowserWorld) (className : List Char) : List Char :=
  let elements := w.classMatches className
  if elements.length = 0 then
    chars "<!-- No elements found with class: " ++ className ++ chars " -->"
  else
    List.intercalate (chars "\n\n")
      (elements.enum.flatMap (fun p => [markerFor className (p.1 + 1), p.2]))

/-- The operation dispatch condition `operation === "find_classes" && keyword`. -/
def selectsFindClasses (operation keyword : Option (List Char)) : Bool :=
  (operation == some (chars "find_classes")) && jsTruthy keyword

/-- Extraction step: class-scoped when selected, else full document markup. -/
def extractHtml (w : BrowserWorld) (operation keyword : Option (List Char)) : List Char :=
  if selectsFindClasses operation keyword then
    findClassesEval w (keyword.getD [])
  else w.fullHtml

/-- The browser Lambda handler. Validation precedes launch; every throw after
a successful launch reaches the catch block, which closes the browser
(swallowing a close error) and returns the 500 body with the original error
message and `event.url`. A close failure on the otherwise-successful path
itself reaches the catch block, where close is attempted a second time. -/
def browserHandler (w : BrowserWorld) (e : BrowserEvent) : BrowserResult × BrowserTrace :=
  if jsTruthy e.url = false then
    (.badRequest (chars "Missing required parameter: url"), ⟨0, 0, none, none, none⟩)
  else
    let timeout := jsOrInt e.timeout 60000
    let waitUntil := jsOrChars e.waitUntil (chars "networkidle0")
    let delay := jsOrInt e.delay 2000
    if w.launchFails then
      (.serverError w.launchErr e.url, ⟨1, 0, none, none, none⟩)
    else if w.navFails then
      (.serverError w.navErr e.url, ⟨1, 1, some timeout, some waitUntil, none⟩)
    else if jsTruthy e.waitForSelector && w.selectorFails then
      (.serverError w.selectorErr e.url, ⟨1, 1, some timeout, some waitUntil, none⟩)
    else if decide (delay > 0) && w.settleFails then
      (.serverError w.settleErr e.url, ⟨1, 1, some timeout, some waitUntil, none⟩)
    else
      let settled := if delay > 0 then some delay else none
      if w.extractFails then
        (.serverError w.extractErr e.url, ⟨1, 1, some timeout, some waitUntil, settled⟩)
      else if w.closeFails then
        (.serverError w.closeErr e.url, ⟨1, 2, some timeout, some waitUntil, settled⟩)
      else
        (.ok (extractHtml w e.operation e.keyword) w.finalUrl w.timestamp,
          ⟨1, 1, some timeout, some waitUntil, settled⟩)

/-- Specification-side rendering of matched fragments: each fragment preceded
by its 1-based positional marker, in document order. -/
def specMarked (className : List Char) : Nat → List (List Char) → List (List Char)
  | _, [] => []
  | n, frag :: rest => markerFor className n :: frag :: specMarked className (n + 1) rest

theorem enumFrom_bind_marked (className : List Char) :
    ∀ (ms : List (List Char)) (n : Nat),
      (List.enumFrom n ms).flatMap (fun p => [markerFor className (p.1 + 1), p.2])
        = specMarked className (n + 1) ms := by
  intro ms
  induction ms with
  | nil => intro n; simp [specMarked]
  | cons frag rest ih =>
    intro n
    simp only [List.enumFrom, List.flatMap_cons, specMarked, ih (n + 1)]
    rfl

/-! ### Sample worlds and events for the witnesses -/

def sampleWorld : BrowserWorld where
  launchFails := false
  launchErr := []
  navFails := false
  navErr := []
  selectorFails := false
  selectorErr := []
  settleFails := false
  settleErr := []
  extractFails := false
  extractErr := []
  closeFails := false
  closeErr := []
  finalUrl := chars "https://example.com/"
  fullHtml := chars "<html></html>"
  classMatches := fun _ => []
  timestamp := chars "2026-01-01T00:00:00Z"

def noUrlEvent : BrowserEvent where
  url := none
  operation := none
  keyword := none
  waitUntil := none
  timeout := none
  waitForSelector := none
  delay := none

def urlEvent : BrowserEvent := { noUrlEvent with url := some (chars "https://example.com") }

/-- C4: a render event with no url yields status 400 with the fixed
validation-error body, and no browser is ever launched. -/
theorem C4_missing_url_validation :
    ∀ (w : BrowserWorld) (e : BrowserEvent), e.url = none →
      (browserHandler w e).1 = .badRequest (chars "Missing required parameter: url")
      ∧ (browserHandler w e).1.statusCode = 400
      ∧ (browserHandler w e).2.launches = 0 := by
  intro w e hurl
  simp [browserHandler, jsTruthy, hurl, BrowserResult.statusCode]

/-- C4 witness: the no-url event against the sample world. -/
theorem C4_missing_url_validation_witness :
    (browserHandler sampleWorld noUrlEvent).1
        = .badRequest (chars "Missing required parameter: url")
    ∧ (browserHandler sampleWorld noUrlEvent).1.statusCode = 400
    ∧ (browserHandler sampleWorld noUrlEvent).2.launches = 0 :=
  C4_missing_url_validation sampleWorld noUrlEvent rfl

/-- C1: whenever the launch succeeds, close is invoked exactly once on the
success path and on each failure path (navigation, selector-wait, settle
delay, extraction); on those failure paths the result is the 500 failure
carrying the failing step's error message and the requested url, whether or
not closing itself throws in the catch block (the close error is swallowed). -/
theorem C1_close_exactly_once :
    ∀ (w : BrowserWorld) (e : BrowserEvent) (u : List Char),
      e.url = some u → u ≠ [] → w.launchFails = false →
      ((w.navFails = false → (jsTruthy e.waitForSelector && w.selectorFails) = false →
        (decide (jsOrInt e.delay 2000 > 0) && w.settleFails) = false →
        w.extractFails = false → w.closeFails = false →
        (browserHandler w e).2.closes = 1)
      ∧ (w.navFails = true →
          (browserHandler w e).2.closes = 1 ∧
          (browserHandler w e).1 = .serverError w.navErr (some u))
      ∧ (w.navFails = false → (jsTruthy e.waitForSelector && w.selectorFails) = true →
          (browserHandler w e).2.closes = 1 ∧
          (browserHandler w e).1 = .serverError w.selectorErr (some u))
      ∧ (w.navFails = false → (jsTruthy e.waitForSelector && w.selectorFails) = false →
          (decide (jsOrInt e.delay 2000 > 0) && w.settleFails) = true →
          (browserHandler w e).2.closes = 1 ∧
          (browserHandler w e).1 = .serverError w.settleErr (some u))
      ∧ (w.navFails = false → (jsTruthy e.waitForSelector && w.selectorFails) = false →
          (decide (jsOrInt e.delay 2000 > 0) && w.settleFails) = false →
          w.extractFails = true →
          (browserHandler w e).2.closes = 1 ∧
          (browserHandler w e).1 = .serverError w.extractErr (some u))) := by
  intro w e u hurl hune hlaunch
  have htru : jsTruthy e.url = true := by simp [jsTruthy, hurl, hune]
  have htru2 : jsTruthy (some u) = true := by simp [jsTruthy, hune]
  refine ⟨?_, ?_, ?_, ?_, ?_⟩
  · intro h1 h2 h3 h4 h5
    simp [browserHandler, htru, hlaunch, h1, h2, h3, h4, h5]
  · intro h1
    simp [browserHandler, htru, htru2, hlaunch, h1, hurl]
  · intro h1 h2
    simp [browserHandler, htru, htru2, hlaunch, h1, h2, hurl]
  · intro h1 h2 h3
    simp [browserHandler, htru, htru2, hlaunch, h1, h2, h3, hurl]
  · intro h1 h2 h3 h4
    simp [browserHandler, htru, htru2, hlaunch, h1, h2, h3, h4, hurl]

/-- C1 witness: the all-successful run closes the browser exactly once. -/
theorem C1_close_exactly_once_witness :
    (browserHandler sampleWorld urlEvent).2.closes = 1 :=
  (C1_close_exactly_once sampleWorld urlEvent (chars "https://example.com")
    rfl (by decide) rfl).1 rfl (by decide) (by decide) rfl rfl

/-- The zero-match placeholder is never the empty string. -/
theorem placeholder_ne_nil (k : List Char) :
    chars "<!-- No elements found with class: " ++ k ++ chars " -->" ≠ [] := by
  intro hcon
  have h2 : chars "<!-- No elements found with class: " ++ (k ++ chars " -->") = [] := by
    simpa [List.append_assoc] using hcon
  rcases List.append_eq_nil.mp h2 with ⟨ha, _⟩
  have : (chars "<!-- No elements found with class: ").length = 0 := by simp [ha]
  exact absurd this (by decide)

/-- C5: extraction returns the full document markup unless the find_classes
operation tag plus a truthy (non-empty) keyword select the class-scoped
operation; the class-scoped operation on zero matches returns exactly one
diagnostic placeholder naming the searched token (a returned value, never
empty), and on matches returns the fragments in document order, each
preceded by its 1-based positional marker. -/
theorem C5_extraction_dispatch :
    (∀ (w : BrowserWorld) (operation keyword : Option (List Char)),
      selectsFindClasses operation keyword = false →
      extractHtml w operation keyword = w.fullHtml)
    ∧ (∀ (w : BrowserWorld) (k : List Char), k ≠ [] → w.classMatches k = [] →
      extractHtml w (some (chars "find_classes")) (some k)
        = chars "<!-- No elements found with class: " ++ k ++ chars " -->"
      ∧ extractHtml w (some (chars "find_classes")) (some k) ≠ [])
    ∧ (∀ (w : BrowserWorld) (k : List Char) (ms : List (List Char)), k ≠ [] →
      w.classMatches k = ms → ms ≠ [] →
      extractHtml w (some (chars "find_classes")) (some k)
        = List.intercalate (chars "\n\n") (specMarked k 1 ms)) := by
  refine ⟨?_, ?_, ?_⟩
  · intro w operation keyword h
    simp [extractHtml, h]
  · intro w k hk hmatch
    have hsel : selectsFindClasses (some (chars "find_classes")) (some k) = true := by
      simp [selectsFindClasses, jsTruthy, hk]
    have heq : extractHtml w (some (chars "find_classes")) (some k)
        = chars "<!-- No elements found with class: " ++ k ++ chars " -->" := by
      simp [extractHtml, hsel, findClassesEval, hmatch]
    refine ⟨heq, ?_⟩
    rw [heq]
    exact placeholder_ne_nil k
  · intro w k ms hk hmatch hms
    have hsel : selectsFindClasses (some (chars "find_classes")) (some k) = true := by
      simp [selectsFindClasses, jsTruthy, hk]
    have hlen : ms.length ≠ 0 := by simpa [List.length_eq_zero] using hms
    simp only [extractHtml, hsel, if_true, findClassesEval, Option.getD_some, hmatch,
      hlen, if_false, if_neg hlen]
    congr 1
    have := enumFrom_bind_marked k ms 0
    simpa [List.enum] using this

/-- C5 witness: zero matches for keyword `score` give the one placeholder. -/
theorem C5_extraction_dispatch_witness :
    extractHtml sampleWorld (some (chars "find_classes")) (some (chars "score"))
      = chars "<!-- No elements found with class: " ++ chars "score" ++ chars " -->"
    ∧ extractHtml sampleWorld (some (chars "find_classes")) (some (chars "score")) ≠ [] :=
  C5_extraction_dispatch.2.1 sampleWorld (chars "score") (by decide) rfl

/-- C10: an explicit `0` in an optional numeric field is indistinguishable
from an absent field because `||` defaulting replaces every falsy value:
`delay = 0` behaves exactly like no delay field (default 2000 ms settle) and
`timeout = 0` exactly like no timeout field (default 60000 ms navigation
timeout); a url equal to the empty string fails validation with 400 and no
launch; and on a successful run with both zeros the trace records the 60000
ms navigation timeout and the 2000 ms settle wait. -/
theorem C10_falsy_zero_defaults :
    ∀ (w : BrowserWorld) (e : BrowserEvent) (u : List Char),
      browserHandler w { e with delay := some 0 }
        = browserHandler w { e with delay := none }
      ∧ browserHandler w { e with timeout := some 0 }
        = browserHandler w { e with timeout := none }
      ∧ (browserHandler w { e with url := some [] }).1
        = .badRequest (chars "Missing required parameter: url")
      ∧ (browserHandler w { e with url := some [] }).2.launches = 0
      ∧ (e.url = some u → u ≠ [] → w.launchFails = false → w.navFails = false →
          (jsTruthy e.waitForSelector && w.selectorFails) = false →
          w.settleFails = false → w.extractFails = false → w.closeFails = false →
          (browserHandler w { e with delay := some 0, timeout := some 0 }).2
            = ⟨1, 1, some 60000, some (jsOrChars e.waitUntil (chars "networkidle0")),
                some 2000⟩) := by
  intro w e u
  refine ⟨rfl, rfl, ?_, ?_, ?_⟩
  · simp [browserHandler, jsTruthy]
  · simp [browserHandler, jsTruthy]
  · intro hurl hune h1 h2 h3 h4 h5 h6
    have htru : jsTruthy e.url = true := by simp [jsTruthy, hurl, hune]
    simp [browserHandler, htru, h1, h2, h3, h4, h5, h6, jsOrInt]

/-- C10 witness: event with explicit zeros against the sample world. -/
theorem C10_falsy_zero_defaults_witness :
    (browserHandler sampleWorld
        { urlEvent with delay := some 0, timeout := some 0 }).2
      = ⟨1, 1, some 60000, some (jsOrChars urlEvent.waitUntil (chars "networkidle0")),
          some 2000⟩ :=
  (C10_falsy_zero_defaults sampleWorld urlEvent (chars "https://example.com")).2.2.2.2
    rfl (by decide) rfl rfl (by decide) rfl rfl rfl

/-! ## Notification pipeline Lambda (Python handler in the transcript)

The primary strategy submits an Assistants-API run and polls it; the
fallback is a single synchronous Chat-Completions call. The world records
the submission outcome, the status stream observed by the poll loop, the
response text, the fallback outcome and the publish outcomes. -/

/-- Status of an Assistants-API run. -/
inductive RunStatus
  | queued
  | in_progress
  | cancelling
  | completed
  | failed
  | cancelled
  | expired
deriving DecidableEq

/-- The loop condition `run.status in ['queued', 'in_progress', 'cancelling']`. -/
def isActiveStatus : RunStatus → Bool
  | .queued => true
  | .in_progress => true
  | .cancelling => true
  | _ => false

/-- Poll-loop budget: `max_wait_time = 300` seconds, in milliseconds. -/
def maxWaitMs : Nat := 300000

/-- Poll interval: `time.sleep(2)` seconds, in milliseconds. -/
def pollIntervalMs : Nat := 2000

inductive PollOutcome
  | timedOut
  | finished (s : RunStatus)
deriving DecidableEq

/-- The poll loop: while the status is active, raise the timeout once the
elapsed clock exceeds the budget, otherwise sleep one interval and retrieve
the next status (`retrieve k` is the status observed by the `k`-th retrieve
call; the clock advances by the sleep interval between checks). -/
def pollRun (retrieve : Nat → RunStatus) (k : Nat) (s : RunStatus) (elapsed : Nat) :
    PollOutcome :=
  if isActiveStatus s then
    if h : elapsed > maxWaitMs then .timedOut
    else pollRun retrieve (k + 1) (retrieve k) (elapsed + pollIntervalMs)
  else .finished s
termination_by maxWaitMs + 1 - elapsed
decreasing_by
  simp only [maxWaitMs, pollIntervalMs] at *
  omega

/-- Reasons the primary strategy fails (the exceptions raised in the inner
`try` of the handler). -/
inductive PrimaryError
  | submitFailed (msg : List Char)
  | timedOut
  | statusFailed (s : RunStatus)
  | emptyResponse
deriving DecidableEq

/-- Behaviour of the external Assistants API during one attempt. -/
structure PrimaryWorld where
  submitError : Option (List Char)
  initialStatus : RunStatus
  statuses : Nat → RunStatus
  responseText : Option (List Char)

/-- The primary strategy: submit, poll until timeout or a non-active status,
require `completed`, then require a non-empty assistant response. -/
def runPrimary (w : PrimaryWorld) : Except PrimaryError (List Char) :=
  match w.submitError with
  | some m => .error (.submitFailed m)
  | none =>
    match pollRun w.statuses 0 w.initialStatus 0 with
    | .timedOut => .error .timedOut
    | .finished s =>
      if s = .completed then
        match w.responseText with
        | some t => .ok t
        | none => .error .emptyResponse
      else .error (.statusFailed s)

/-- Trace of one run of the generation section: the prompt handed to the
primary strategy, and the number of fallback invocations with the prompt
handed to the fallback. -/
structure GenTrace where
  primaryPrompt : Option (List Char)
  fallbackCalls : Nat
  fallbackPrompt : Option (List Char)
deriving DecidableEq

/-- Generation section of the handler: run the primary strategy; on any
failure, perform exactly one synchronous fallback call with the same
formatted prompt; a fallback error propagates as the generation error. -/
def generateContent (pw : PrimaryWorld) (fallbackResult : Except (List Char) (List Char))
    (prompt : List Char) : Except (List Char) (List Char) × GenTrace :=
  match runPrimary pw with
  | .ok t => (.ok t, ⟨some prompt, 0, none⟩)
  | .error _ =>
    match fallbackResult with
    | .ok t => (.ok t, ⟨some prompt, 1, some prompt⟩)
    | .error m => (.error m, ⟨some prompt, 1, some prompt⟩)

/-- Python `str.replace`: replace every non-overlapping, leftmost-first
occurrence of the (non-empty) pattern. -/
def replaceAll (pat repl : List Char) : List Char → List Char
  | [] => []
  | c :: rest =>
    if h : pat ≠ [] ∧ leadsWith pat (c :: rest) = true then
      repl ++ replaceAll pat repl ((c :: rest).drop pat.length)
    else
      c :: replaceAll pat repl rest
termination_by l => l.length
decreasing_by
  · have hp : 0 < pat.length := List.length_pos.mpr h.1
    simp only [List.length_drop, List.length_cons]
    omega
  · simp only [List.length_cons]
    omega

/-- `format_prompt`: substitute the date placeholders, current date first. -/
def formatPrompt (template cur prev : List Char) : List Char :=
  replaceAll (chars "{previous_date}") prev
    (replaceAll (chars "{current_date}") cur template)

/-- Failures of the pipeline handler (the exception reaching the outer
catch block). -/
inductive PipeError
  | configError (msg : List Char)
  | genError (msg : List Char)
  | publishError (msg : List Char)
deriving DecidableEq

def PipeError.message : PipeError → List Char
  | .configError m => m
  | .genError m => m
  | .publishError m => m

/-- Body of the 200 response of the pipeline handler. -/
structure PipeSuccess where
  message : List Char
  messageId : List Char
  headline : List Char
  descriptionLength : Nat
deriving DecidableEq

/-- `(subject, message)` pairs handed to the SNS publish binding: the main
notification publishes and the catch-block error publishes. -/
structure PipeTrace where
  mainPublishes : List (List Char × List Char)
  errorPublishes : List (List Char × List Char)
deriving DecidableEq

/-- Environment and external behaviour of one pipeline invocation.
`errorPublishFails` records whether the catch-block publish itself throws;
the handler swallows that outcome (`except: pass`), so no part of the
handler reads this field. -/
structure PipeWorld where
  snsTopicArn : Option (List Char)
  openaiApiKey : Option (List Char)
  primary : PrimaryWorld
  fallbackResult : Except (List Char) (List Char)
  publishResult : Except (List Char) (List Char)
  errorPublishFails : Bool

/-- Message published by the catch block. -/
def errorMessageOf (e : PipeError) : List Char :=
  chars "Error processing soccer news: " ++ e.message

/-- The pipeline handler: validate configuration, format the prompt, run the
generation strategies, parse, publish the stripped raw text with the
truncated headline as subject, and return the body carrying the full
headline. Any failure reaches the catch block, which attempts one
best-effort error publish with the fixed subject (skipped when no topic is
configured, outcome swallowed) and re-raises the original error. -/
def snsHandler (w : PipeWorld) (template cur prev : List Char) :
    Except PipeError PipeSuccess × PipeTrace :=
  match w.snsTopicArn with
  | none =>
    (.error (.configError (chars "SNS_TOPIC_ARN environment variable is not set")),
      ⟨[], []⟩)
  | some _ =>
    match w.openaiApiKey with
    | none =>
      let e := PipeError.configError (chars "OPENAI_API_KEY environment variable is not set")
      (.error e, ⟨[], [(chars "Soccer News Error", errorMessageOf e)]⟩)
    | some _ =>
      let prompt := formatPrompt template cur prev
      match (generateContent w.primary w.fallbackResult prompt).1 with
      | .error m =>
        let e := PipeError.genError m
        (.error e, ⟨[], [(chars "Soccer News Error", errorMessageOf e)]⟩)
      | .ok content =>
        let env := parseNotification content
        let message := pyStrip content
        let subject := env.headline.take 100
        match w.publishResult with
        | .error m =>
          let e := PipeError.publishError m
          (.error e,
            ⟨[(subject, message)], [(chars "Soccer News Error", errorMessageOf e)]⟩)
        | .ok mid =>
          (.ok ⟨chars "Notification sent successfully", mid, env.headline,
              env.description.length⟩,
            ⟨[(subject, message)], []⟩)

/-! ### Sample worlds for the witnesses -/

def failingPrimary : PrimaryWorld where
  submitError := some (chars "boom")
  initialStatus := .queued
  statuses := fun _ => .queued
  responseText := none

def sampleRawText : List Char := chars "Leeds win big\n\n\nLeeds beat City 3-0."

def samplePipeWorld : PipeWorld where
  snsTopicArn := some (chars "arn:aws:sns:topic")
  openaiApiKey := some (chars "sk-test")
  primary := failingPrimary
  fallbackResult := .ok sampleRawText
  publishResult := .ok (chars "mid-123")
  errorPublishFails := false

def failingPipeWorld : PipeWorld :=
  { samplePipeWorld with fallbackResult := .error (chars "fallback down") }

/-- C2: whenever the primary strategy fails for any reason, the fallback is
invoked exactly once, with the same formatted prompt handed to the primary
strategy, and if the fallback succeeds its text is the overall generation
result. -/
theorem C2_fallback_once :
    ∀ (pw : PrimaryWorld) (fb : Except (List Char) (List Char))
      (prompt : List Char) (err : PrimaryError),
      runPrimary pw = .error err →
      (generateContent pw fb prompt).2.fallbackCalls = 1
      ∧ (generateContent pw fb prompt).2.fallbackPrompt = some prompt
      ∧ (generateContent pw fb prompt).2.primaryPrompt = some prompt
      ∧ (∀ t, fb = .ok t → (generateContent pw fb prompt).1 = .ok t) := by
  intro pw fb prompt err h
  cases fb with
  | ok t => simp [generateContent, h]
  | error m => simp [generateContent, h]

/-- C2 witness: a submission failure falls back, and the fallback text is
returned. -/
theorem C2_fallback_once_witness :
    (generateContent failingPrimary (.ok sampleRawText) (chars "PROMPT")).2.fallbackCalls = 1
    ∧ (generateContent failingPrimary (.ok sampleRawText) (chars "PROMPT")).2.fallbackPrompt
      = some (chars "PROMPT")
    ∧ (generateContent failingPrimary (.ok sampleRawText) (chars "PROMPT")).2.primaryPrompt
      = some (chars "PROMPT")
    ∧ (generateContent failingPrimary (.ok sampleRawText) (chars "PROMPT")).1
      = .ok sampleRawText := by
  have h := C2_fallback_once failingPrimary (.ok sampleRawText) (chars "PROMPT")
    (.submitFailed (chars "boom")) rfl
  exact ⟨h.1, h.2.1, h.2.2.1, h.2.2.2 sampleRawText rfl⟩

/-- C6: the poll loop treats exactly queued/in_progress/cancelling as
non-terminal (cancelling keeps polling), advances the clock by the fixed
2000 ms interval per check, times out once the elapsed clock exceeds the
300000 ms budget, exits at any other status; a non-completed terminal status
is a primary-strategy failure, and a primary timeout is not fatal to the
pipeline: the fallback's success is the overall generation success. -/
theorem C6_poll_loop :
    (isActiveStatus .cancelling = true ∧ isActiveStatus .queued = true
      ∧ isActiveStatus .in_progress = true ∧ isActiveStatus .completed = false
      ∧ isActiveStatus .failed = false)
    ∧ (∀ retrieve k s t, isActiveStatus s = true → t ≤ 300000 →
        pollRun retrieve k s t = pollRun retrieve (k + 1) (retrieve k) (t + 2000))
    ∧ (∀ retrieve k s t, isActiveStatus s = true → t > 300000 →
        pollRun retrieve k s t = .timedOut)
    ∧ (∀ retrieve k s t, isActiveStatus s = false →
        pollRun retrieve k s t = .finished s)
    ∧ (∀ (pw : PrimaryWorld) (s : RunStatus), pw.submitError = none →
        pollRun pw.statuses 0 pw.initialStatus 0 = .finished s → s ≠ .completed →
        runPrimary pw = .error (.statusFailed s))
    ∧ (∀ (pw : PrimaryWorld) (fb : Except (List Char) (List Char))
        (prompt t : List Char), runPrimary pw = .error .timedOut → fb = .ok t →
        (generateContent pw fb prompt).1 = .ok t) := by
  refine ⟨by decide, ?_, ?_, ?_, ?_, ?_⟩
  · intro retrieve k s t hact ht
    rw [pollRun, if_pos hact, dif_neg (by simp only [maxWaitMs]; omega)]
    rfl
  · intro retrieve k s t hact ht
    rw [pollRun, if_pos hact, dif_pos (by simp only [maxWaitMs]; omega)]
  · intro retrieve k s t hinact
    rw [pollRun, if_neg (by simp [hinact])]
  · intro pw s hsub hpoll hne
    simp [runPrimary, hsub, hpoll, hne]
  · intro pw fb prompt t hp hfb
    simp [generateContent, hp, hfb]

/-- C6 witness: a cancelling status inside the budget polls again after one
2000 ms interval. -/
theorem C6_poll_loop_witness :
    pollRun (fun _ => RunStatus.cancelling) 0 RunStatus.cancelling 0
      = pollRun (fun _ => RunStatus.cancelling) 1 RunStatus.cancelling 2000 :=
  C6_poll_loop.2.1 (fun _ => RunStatus.cancelling) 0 RunStatus.cancelling 0
    (by decide) (by decide)

/-- C8: on the success path, the message handed to the publisher is the
stripped original raw generated text (never reconstructed from the split
parts), the transport subject is the headline truncated to 100 characters,
and the returned body carries the full untruncated headline. -/
theorem C8_publish_message :
    ∀ (w : PipeWorld) (template cur prev arn key content mid : List Char),
      w.snsTopicArn = some arn → w.openaiApiKey = some key →
      (generateContent w.primary w.fallbackResult (formatPrompt template cur prev)).1
        = .ok content →
      w.publishResult = .ok mid →
      (snsHandler w template cur prev).2.mainPublishes
        = [((parseNotification content).headline.take 100, pyStrip content)]
      ∧ (snsHandler w template cur prev).1
        = .ok ⟨chars "Notification sent successfully", mid,
            (parseNotification content).headline,
            (parseNotification content).description.length⟩
      ∧ (snsHandler w template cur prev).2.errorPublishes = [] := by
  intro w template cur prev arn key content mid harn hkey hgen hpub
  refine ⟨?_, ?_, ?_⟩ <;> simp [snsHandler, harn, hkey, hgen, hpub]

/-- C8 witness: the sample pipeline publishes the stripped raw text with the
truncated headline as subject and returns the full headline. -/
theorem C8_publish_message_witness :
    (snsHandler samplePipeWorld (chars "T") (chars "20260101") (chars "20251231")).2.mainPublishes
      = [((parseNotification sampleRawText).headline.take 100, pyStrip sampleRawText)]
    ∧ (snsHandler samplePipeWorld (chars "T") (chars "20260101") (chars "20251231")).1
      = .ok ⟨chars "Notification sent successfully", chars "mid-123",
          (parseNotification sampleRawText).headline,
          (parseNotification sampleRawText).description.length⟩
    ∧ (snsHandler samplePipeWorld (chars "T") (chars "20260101") (chars "20251231")).2.errorPublishes
      = [] :=
  C8_publish_message samplePipeWorld (chars "T") (chars "20260101") (chars "20251231")
    (chars "arn:aws:sns:topic") (chars "sk-test") sampleRawText (chars "mid-123")
    rfl rfl rfl rfl

/-- C9: when the delivery sink is configured and the pipeline fails at any
stage (missing credential, generation failure after fallback, publish
failure), exactly one best-effort secondary error publish with the fixed
subject is attempted, the secondary publish's own outcome is swallowed (the
handler does not depend on it), and the original failure is re-raised. -/
theorem C9_error_notification :
    ∀ (w : PipeWorld) (template cur prev arn : List Char),
      w.snsTopicArn = some arn →
      ((w.openaiApiKey = none →
        (snsHandler w template cur prev).1
          = .error (.configError (chars "OPENAI_API_KEY environment variable is not set"))
        ∧ (snsHandler w template cur prev).2.errorPublishes
          = [(chars "Soccer News Error",
              errorMessageOf (.configError (chars "OPENAI_API_KEY environment variable is not set")))])
      ∧ (∀ key m, w.openaiApiKey = some key →
          (generateContent w.primary w.fallbackResult (formatPrompt template cur prev)).1
            = .error m →
          (snsHandler w template cur prev).1 = .error (.genError m)
          ∧ (snsHandler w template cur prev).2.errorPublishes
            = [(chars "Soccer News Error", errorMessageOf (.genError m))])
      ∧ (∀ key content m, w.openaiApiKey = some key →
          (generateContent w.primary w.fallbackResult (formatPrompt template cur prev)).1
            = .ok content →
          w.publishResult = .error m →
          (snsHandler w template cur prev).1 = .error (.publishError m)
          ∧ (snsHandler w template cur prev).2.errorPublishes
            = [(chars "Soccer News Error", errorMessageOf (.publishError m))])
      ∧ (∀ b, snsHandler { w with errorPublishFails := b } template cur prev
            = snsHandler w template cur prev)) := by
  intro w template cur prev arn harn
  refine ⟨?_, ?_, ?_, ?_⟩
  · intro hkey
    constructor <;> simp [snsHandler, harn, hkey]
  · intro key m hkey hgen
    constructor <;> simp [snsHandler, harn, hkey, hgen]
  · intro key content m hkey hgen hpub
    constructor <;> simp [snsHandler, harn, hkey, hgen, hpub]
  · intro b
    rfl

/-- C9 witness: generation fails after the fallback; one error publish with
the fixed subject is attempted and the generation error is re-raised. -/
theorem C9_error_notification_witness :
    (snsHandler failingPipeWorld (chars "T") (chars "20260101") (chars "20251231")).1
      = .error (.genError (chars "fallback down"))
    ∧ (snsHandler failingPipeWorld (chars "T") (chars "20260101") (chars "20251231")).2.errorPublishes
      = [(chars "Soccer News Error", errorMessageOf (.genError (chars "fallback down")))] :=
  (C9_error_notification failingPipeWorld (chars "T") (chars "20260101") (chars "20251231")
    (chars "arn:aws:sns:topic") rfl).2.1
    (chars "sk-test") (chars "fallback down") rfl rfl

end SoccerNews
